import Mathlib

/-!
Verification development for the bankruptcy-monitoring bot (src/bot.py).

The Python source is shallowly embedded below.  Dates are represented by
their proleptic Gregorian ordinal (the exact value computed by Python's
datetime.date.toordinal), so date comparison and timedelta arithmetic in
the source become Nat comparison and arithmetic here.  Registry rows are
the dataframe rows after column detection (code cell, name cell, date
cell); a cell is either a string or NaN.  The possibility of a Python
exception escaping a helper (the IndexError in parse_date) is embedded
with Except Unit; the top-level try/except of check_bankruptcy_logic
becomes the error branch of the embedded function.
-/

namespace BankruptBot

/-- Embeds the constant DAYS_TO_CHECK = 2 (src/bot.py line 33). -/
def DAYS_TO_CHECK : Nat := 2

/-- Embeds MAX_DISPLAY = 20 (src/bot.py line 357). -/
def MAX_DISPLAY : Nat := 20

/-- A calendar date as produced by datetime.datetime.strptime(s, "%d.%m.%Y").date(). -/
structure Date where
  day : Nat
  month : Nat
  year : Nat
deriving DecidableEq, Repr

/-- Gregorian leap-year rule, as used by Python's datetime module. -/
def isLeap (y : Nat) : Bool :=
  (y % 4 == 0 && y % 100 != 0) || (y % 400 == 0)

/-- Number of days in month m of year y (Gregorian calendar). -/
def daysInMonth (m y : Nat) : Nat :=
  if m == 2 then (if isLeap y then 29 else 28)
  else if m == 4 || m == 6 || m == 9 || m == 11 then 30
  else 31

/-- Days in year y that precede month m. -/
def daysBeforeMonth (m y : Nat) : Nat :=
  ((List.range (m - 1)).map (fun i => daysInMonth (i + 1) y)).sum

/-- Proleptic Gregorian ordinal of a date: the value of
datetime.date(year, month, day).toordinal() in Python (01.01.0001 has
ordinal 1).  Date comparison and timedelta arithmetic in the source are
performed on this ordinal. -/
def dateOrd (d : Date) : Nat :=
  365 * (d.year - 1) + (d.year - 1) / 4 - (d.year - 1) / 100 + (d.year - 1) / 400
    + daysBeforeMonth d.month d.year + d.day

/-- Zero-pad a number to two digits, as strftime %d and %m do. -/
def pad2 (n : Nat) : String :=
  if n < 10 then "0" ++ toString n else toString n

/-- Zero-pad a year to four digits, as strftime %Y does. -/
def pad4 (n : Nat) : String :=
  if n < 10 then "000" ++ toString n
  else if n < 100 then "00" ++ toString n
  else if n < 1000 then "0" ++ toString n
  else toString n

/-- Embeds date_obj.strftime("%d.%m.%Y") (src/bot.py line 341). -/
def strftimeDMY (d : Date) : String :=
  pad2 d.day ++ "." ++ pad2 d.month ++ "." ++ pad4 d.year

/-- Split a character list at every character satisfying p, keeping empty
pieces, exactly as Python's str.split(sep) does on the character level. -/
def splitAux (p : Char → Bool) : List Char → List Char → List (List Char)
  | [], cur => [cur.reverse]
  | c :: cs, cur => if p c then cur.reverse :: splitAux p cs [] else splitAux p cs (c :: cur)

/-- Split a string at every character satisfying p (structural version of
String.split, used so concrete evaluation reduces in the kernel). -/
def strSplit (p : Char → Bool) (s : String) : List String :=
  (splitAux p s.data []).map String.mk

/-- Lowercase a string character by character (str.lower for the ASCII
strings compared against "nan" in the source). -/
def strLower (s : String) : String :=
  String.mk (s.data.map Char.toLower)

/-- Strip leading and trailing whitespace, as Python's str.strip does. -/
def strStrip (s : String) : String :=
  String.mk (((s.data.dropWhile Char.isWhitespace).reverse.dropWhile Char.isWhitespace).reverse)

/-- Numeric value of a string of decimal digits (int(s) on an all-digit
string, as strptime produces for each matched group). -/
def natOfDigits (s : String) : Nat :=
  s.data.foldl (fun n c => 10 * n + (c.toNat - 48)) 0

/-- Core of datetime.datetime.strptime(token, "%d.%m.%Y"): the token must be
one-or-two digits, a dot, one-or-two digits, a dot, exactly four digits
(this is the regular expression CPython compiles for the format), and the
three numbers must form a valid calendar date with year at least 1
(datetime.date validates day against the month length and rejects year 0).
Returns none exactly when strptime raises ValueError. -/
def parse_token (t : String) : Option Date :=
  match strSplit (fun c => c == '.') t with
  | [ds, ms, ys] =>
    if 1 ≤ ds.length ∧ ds.length ≤ 2 ∧ ds.data.all Char.isDigit
        ∧ 1 ≤ ms.length ∧ ms.length ≤ 2 ∧ ms.data.all Char.isDigit
        ∧ ys.length = 4 ∧ ys.data.all Char.isDigit then
      let d := natOfDigits ds
      let m := natOfDigits ms
      let y := natOfDigits ys
      if 1 ≤ d ∧ 1 ≤ m ∧ m ≤ 12 ∧ 1 ≤ y ∧ d ≤ daysInMonth m y then
        some ⟨d, m, y⟩
      else none
    else none
  | _ => none

instance {ε α : Type} [DecidableEq ε] [DecidableEq α] : DecidableEq (Except ε α) :=
  fun a b =>
    match a, b with
    | Except.error e, Except.error f =>
      if h : e = f then isTrue (by rw [h]) else isFalse (by intro hc; cases hc; exact h rfl)
    | Except.error _, Except.ok _ => isFalse (by intro hc; cases hc)
    | Except.ok _, Except.error _ => isFalse (by intro hc; cases hc)
    | Except.ok x, Except.ok y =>
      if h : x = y then isTrue (by rw [h]) else isFalse (by intro hc; cases hc; exact h rfl)

/-- A dataframe cell: either the float NaN pandas uses for a missing value,
or a string. -/
inductive Cell where
  | nan : Cell
  | str (s : String) : Cell
deriving DecidableEq, Repr

/-- Embeds date_str.strip().split()[0] minus the indexing: the first
whitespace-separated token of the string, if any. -/
def firstToken (s : String) : Option String :=
  ((strSplit Char.isWhitespace s).filter (fun x => x ≠ "")).head?

/-- Embeds parse_date (src/bot.py lines 246-256).  NaN cells and cells whose
string form lowercases to "nan" yield None (ok none here).  Otherwise the
code takes strip().split()[0]; on a string with no tokens (empty or
whitespace-only) the [0] raises IndexError, embedded as Except.error ().
Otherwise strptime is attempted on the first token; ValueError is caught
and yields None. -/
def parse_date (v : Cell) : Except Unit (Option Date) :=
  match v with
  | Cell.nan => Except.ok none
  | Cell.str s =>
    if strLower s = "nan" then Except.ok none
    else
      match firstToken s with
      | none => Except.error ()
      | some t => Except.ok (parse_token t)

/-- A registry row after column detection: the ЄДРПОУ code cell (as a
string, astype(str) having been applied), the name cell, and the raw date
cell.  Embeds one row of data_df restricted to the three used columns. -/
structure Row where
  code : String
  name : String
  date : Cell
deriving DecidableEq, Repr

/-- One element of the results list built by check_bankruptcy_logic
(src/bot.py lines 338-343): the dict with keys "code", "name", "date"
(the strftime rendering) and "date_obj" (the parsed date). -/
structure Entry where
  code : String
  name : String
  date : String
  dateObj : Date
deriving DecidableEq, Repr

/-- The comparison used by results.sort(key=lambda x: x["date_obj"],
reverse=True): a precedes b when a's date is at least b's date. -/
def entryGE (a b : Entry) : Prop :=
  dateOrd b.dateObj ≤ dateOrd a.dateObj

instance : DecidableRel entryGE :=
  fun a b => Nat.decLe (dateOrd b.dateObj) (dateOrd a.dateObj)

instance : IsTotal Entry entryGE :=
  ⟨fun a b => (Nat.le_total (dateOrd b.dateObj) (dateOrd a.dateObj)).imp id id⟩

instance : IsTrans Entry entryGE :=
  ⟨fun _ _ _ hab hbc => Nat.le_trans hbc hab⟩

/-- One iteration of the matching loop (src/bot.py lines 308-344) for one
watchlist code, acting on the accumulator (results, seen_codes).  The code
is skipped when already in seen_codes; otherwise the FIRST registry row
whose stripped code cell equals the watchlist code (matches.iloc[0]) is
examined: its date cell is parsed (an IndexError from parse_date
propagates), and the row is appended to results — and the code to
seen_codes — exactly when the parse succeeded and the date is strictly
later than the threshold. -/
def checkStep (fixName : String → String) (regs : List Row) (threshold : Nat)
    (acc : List Entry × List String) (code : String) :
    Except Unit (List Entry × List String) :=
  if code ∈ acc.2 then Except.ok acc
  else
    match (regs.filter (fun r => strStrip r.code == code)).head? with
    | none => Except.ok acc
    | some row =>
      match parse_date row.date with
      | Except.error e => Except.error e
      | Except.ok none => Except.ok acc
      | Except.ok (some d) =>
        if threshold < dateOrd d then
          Except.ok
            (acc.1 ++ [⟨code, fixName row.name, strftimeDMY d, d⟩], acc.2 ++ [code])
        else Except.ok acc

/-- The for-loop over enterprise_codes (src/bot.py lines 308-344); an
exception raised inside an iteration aborts the remaining iterations. -/
def checkLoop (fixName : String → String) (regs : List Row) (threshold : Nat) :
    List String → List Entry × List String → Except Unit (List Entry × List String)
  | [], acc => Except.ok acc
  | c :: cs, acc =>
    match checkStep fixName regs threshold acc c with
    | Except.error e => Except.error e
    | Except.ok acc' => checkLoop fixName regs threshold cs acc'

/-- The match-computation core of check_bankruptcy_logic (src/bot.py lines
298-354): threshold is today minus DAYS_TO_CHECK days (line 302), the loop
runs over the watchlist codes, and the surviving results are sorted by
date_obj descending (line 354).  fixName is the byte-level encoding repair
applied to the name cell (lines 322-333); its character-level behaviour is
kept abstract.  today is the ordinal of datetime.date.today(). -/
def checkResults (fixName : String → String) (codes : List String)
    (regs : List Row) (today : Nat) : Except Unit (List Entry) :=
  match checkLoop fixName regs (today - DAYS_TO_CHECK) codes ([], []) with
  | Except.error e => Except.error e
  | Except.ok acc => Except.ok (List.insertionSort entryGE acc.1)

/-- The message returned when companies.txt is empty or missing
(src/bot.py line 265). -/
def noWatchlistMsg : String :=
  "⚠️ Список предприятий (companies.txt) пуст или не найден."

/-- The message returned when the registry download fails (line 272). -/
def downloadFailMsg : String :=
  "❌ Не удалось скачать файл реестра. Проверьте подключение к интернету."

/-- The message returned when the CSV cannot be read (line 277). -/
def readFailMsg : String :=
  "❌ Ошибка: не удалось прочитать файл реестра."

/-- The message returned when no new bankruptcies are found (line 352),
with DAYS_TO_CHECK interpolated. -/
def noMatchesMsg : String :=
  "✅ В списке мониторинга новых банкротов не найдено\n(проверка за последние "
    ++ toString DAYS_TO_CHECK ++ " дней)."

/-- The message returned by the outer except handler (line 383) when the
loop raises; the only exception in the embedded fragment is the IndexError
from parse_date, whose str() is "list index out of range". -/
def exceptionMsg : String :=
  "❌ Произошла ошибка при проверке: list index out of range"

/-- Shorten a display name to at most 80 characters (lines 366-367). -/
def shortenName (name : String) : String :=
  if 80 < name.length then String.mk (name.data.take 77) ++ "..." else name

/-- Twenty-five hyphens, the separator line built by repetition in the
source (line 373). -/
def sepLine : String :=
  String.mk (List.replicate 25 '-')

/-- One numbered block of the report (lines 369-374). -/
def entryLine (i : Nat) (e : Entry) : String :=
  toString i ++ ". <b>Код:</b> " ++ e.code ++ "\n🏢 " ++ shortenName e.name
    ++ "\n📅 " ++ e.date ++ "\n" ++ sepLine ++ "\n"

/-- The enumerated blocks for the displayed entries, numbering from 1
(enumerate(display_results, 1), line 363). -/
def entryLines : Nat → List Entry → String
  | _, [] => ""
  | i, e :: es => entryLine i e ++ entryLines (i + 1) es

/-- The found-bankrupts report (lines 356-379): header with the total
count, the first MAX_DISPLAY entries, and a truncation notice when more
results exist. -/
def buildReport (results : List Entry) : String :=
  let total := results.length
  let body := "⚠️ <b>НАЙДЕНЫ БАНКРОТЫ (" ++ toString total ++ ")</b>\n\n"
    ++ entryLines 1 (results.take MAX_DISPLAY)
  if MAX_DISPLAY < total then
    body ++ "\n<i>... и еще " ++ toString (total - MAX_DISPLAY) ++ " записей</i>"
  else body

/-- Embeds check_bankruptcy_logic (src/bot.py lines 259-383) end to end.
codes is the output of get_monitored_codes, downloadOk and readOk the
outcomes of download_csv and read_csv, regs the dataframe rows with the
three detected columns, today the ordinal of datetime.date.today().  The
branches appear in source order: empty watchlist, download failure, read
failure, then the matching loop whose exception reaches the outer except
handler, then the empty-result message or the report. -/
def check_bankruptcy_logic (fixName : String → String) (codes : List String)
    (downloadOk readOk : Bool) (regs : List Row) (today : Nat) : String :=
  if codes.isEmpty then noWatchlistMsg
  else if !downloadOk then downloadFailMsg
  else if !readOk then readFailMsg
  else
    match checkResults fixName codes regs today with
    | Except.error _ => exceptionMsg
    | Except.ok results => if results.isEmpty then noMatchesMsg else buildReport results

/-- One iteration of the duplicate-removal loop of get_monitored_codes
(src/bot.py lines 69-74): the accumulator is the (unique_codes, seen)
pair; a code already seen is skipped, otherwise it is appended to
unique_codes and recorded in seen. -/
def dedupStep (acc : List String × List String) (c : String) : List String × List String :=
  if c ∈ acc.2 then acc else (acc.1 ++ [c], c :: acc.2)

/-- Embeds get_monitored_codes (src/bot.py lines 58-83).  The file is
modelled as the list of its lines, or none when missing or unreadable
(both the missing-file branch and the except branch return an empty
list).  Lines are stripped, blank lines dropped, then duplicates removed
keeping the first occurrence. -/
def get_monitored_codes (file : Option (List String)) : List String :=
  match file with
  | none => []
  | some lines =>
    let codes := (lines.map strStrip).filter (fun l => l ≠ "")
    (codes.foldl dedupStep ([], [])).1

/-- Embeds get_subscribers (src/bot.py lines 86-96): the set of stripped
non-blank lines of subscribers.txt, with a missing or unreadable file
giving the empty set.  The set is modelled as the list of those lines;
only membership is used by the callers. -/
def get_subscribers (file : Option (List String)) : List String :=
  match file with
  | none => []
  | some lines => (lines.map strStrip).filter (fun l => l ≠ "")

/-- Embeds add_subscriber (src/bot.py lines 99-113): when the chat id is
not among the current subscribers, its line is appended to the file (mode
"a" creates a missing file) and True is returned; otherwise the file is
untouched and False is returned. -/
def add_subscriber (file : Option (List String)) (chat_id : String) :
    Bool × Option (List String) :=
  if chat_id ∈ get_subscribers file then (false, file)
  else (true, some ((file.getD []) ++ [chat_id]))

/-- The history file: none when missing, some none when present but not
valid JSON, some (some l) when it holds the list l.  Embeds the states
load_history (src/bot.py lines 37-46) distinguishes. -/
def load_history (file : Option (Option (List String))) : List String :=
  match file with
  | none => []
  | some none => []
  | some (some l) => l

/-- Embeds save_history (src/bot.py lines 48-54): writing the list gives a
file that parses back to it. -/
def save_history (l : List String) : Option (Option (List String)) :=
  some (some l)

/-- One run of the checking logic together with the history file it leaves
behind.  check_bankruptcy_logic (src/bot.py lines 259-383) never calls
load_history or save_history, so the history component is neither read nor
written: it is returned unchanged. -/
def checkWithHistory (fixName : String → String) (codes : List String)
    (regs : List Row) (today : Nat) (hist : Option (Option (List String))) :
    Except Unit (List Entry) × Option (Option (List String)) :=
  (checkResults fixName codes regs today, hist)

/-- Embeds the delivery loop of scheduled_check (src/bot.py lines 657-671):
each subscriber in turn is attempted; sendOk tells whether the sends to
that subscriber succeed; a failure is logged and the loop continues.  The
first component is the trace of attempts in order (chat id, outcome), the
second is success_count. -/
def scheduled_deliver (subscribers : List String) (sendOk : String → Bool) :
    List (String × Bool) × Nat :=
  subscribers.foldl
    (fun acc chat_id =>
      (acc.1 ++ [(chat_id, sendOk chat_id)], if sendOk chat_id then acc.2 + 1 else acc.2))
    ([], 0)

/-- An entry originates from the first registry row carrying its code: that
row exists, its date cell parses to the entry's date object, the entry's
name is the (encoding-repaired) name cell, its display date is the
strftime rendering, and the date is strictly later than the threshold. -/
def FromFirstRow (fixName : String → String) (regs : List Row) (threshold : Nat)
    (e : Entry) : Prop :=
  ∃ row, (regs.filter (fun r => strStrip r.code == e.code)).head? = some row ∧
    parse_date row.date = Except.ok (some e.dateObj) ∧
    e.name = fixName row.name ∧ e.date = strftimeDMY e.dateObj ∧
    threshold < dateOrd e.dateObj

theorem checkStep_mono (fixName : String → String) (regs : List Row) (threshold : Nat)
    (acc acc' : List Entry × List String) (c : String)
    (h : checkStep fixName regs threshold acc c = Except.ok acc') :
    ∀ e ∈ acc.1, e ∈ acc'.1 := by
  intro e he
  unfold checkStep at h
  split at h
  · injection h with h; rw [← h]; exact he
  · split at h
    · injection h with h; rw [← h]; exact he
    · split at h
      · exact absurd h (by simp)
      · injection h with h; rw [← h]; exact he
      · split at h
        · injection h with h; rw [← h]
          exact List.mem_append_left _ he
        · injection h with h; rw [← h]; exact he

theorem checkStep_seen (fixName : String → String) (regs : List Row) (threshold : Nat)
    (acc acc' : List Entry × List String) (c : String)
    (h : checkStep fixName regs threshold acc c = Except.ok acc') :
    ∀ x ∈ acc'.2, x ∈ acc.2 ∨ x = c := by
  intro x hx
  unfold checkStep at h
  split at h
  · injection h with h; rw [← h] at hx; exact Or.inl hx
  · split at h
    · injection h with h; rw [← h] at hx; exact Or.inl hx
    · split at h
      · exact absurd h (by simp)
      · injection h with h; rw [← h] at hx; exact Or.inl hx
      · split at h
        · injection h with h; rw [← h] at hx
          rcases List.mem_append.mp hx with hx | hx
          · exact Or.inl hx
          · exact Or.inr (List.mem_singleton.mp hx)
        · injection h with h; rw [← h] at hx; exact Or.inl hx

theorem checkStep_new (fixName : String → String) (regs : List Row) (threshold : Nat)
    (acc acc' : List Entry × List String) (c : String)
    (h : checkStep fixName regs threshold acc c = Except.ok acc') :
    ∀ e ∈ acc'.1, e ∈ acc.1 ∨ (e.code = c ∧ FromFirstRow fixName regs threshold e) := by
  intro e he
  unfold checkStep at h
  split at h
  · injection h with h; rw [← h] at he; exact Or.inl he
  · rename_i hseen
    split at h
    · injection h with h; rw [← h] at he; exact Or.inl he
    · rename_i row hrow
      split at h
      · exact absurd h (by simp)
      · injection h with h; rw [← h] at he; exact Or.inl he
      · rename_i d hparse
        split at h
        · rename_i hgt
          injection h with h; rw [← h] at he
          rcases List.mem_append.mp he with he | he
          · exact Or.inl he
          · refine Or.inr ?_
            rw [List.mem_singleton.mp he]
            exact ⟨rfl, row, hrow, hparse, rfl, rfl, hgt⟩
        · injection h with h; rw [← h] at he; exact Or.inl he

theorem checkLoop_mono (fixName : String → String) (regs : List Row) (threshold : Nat) :
    ∀ (cs : List String) (acc final : List Entry × List String),
    checkLoop fixName regs threshold cs acc = Except.ok final →
    ∀ e ∈ acc.1, e ∈ final.1 := by
  intro cs
  induction cs with
  | nil =>
    intro acc final h e he
    unfold checkLoop at h
    injection h with h; rw [← h]; exact he
  | cons c cs ih =>
    intro acc final h e he
    unfold checkLoop at h
    split at h
    · exact absurd h (by simp)
    · rename_i acc' hstep
      exact ih acc' final h e (checkStep_mono fixName regs threshold acc acc' c hstep e he)

theorem checkLoop_sound (fixName : String → String) (regs : List Row) (threshold : Nat) :
    ∀ (cs : List String) (acc final : List Entry × List String),
    checkLoop fixName regs threshold cs acc = Except.ok final →
    ∀ e ∈ final.1, e ∈ acc.1 ∨ FromFirstRow fixName regs threshold e := by
  intro cs
  induction cs with
  | nil =>
    intro acc final h e he
    unfold checkLoop at h
    injection h with h; rw [← h] at he; exact Or.inl he
  | cons c cs ih =>
    intro acc final h e he
    unfold checkLoop at h
    split at h
    · exact absurd h (by simp)
    · rename_i acc' hstep
      rcases ih acc' final h e he with h' | h'
      · rcases checkStep_new fixName regs threshold acc acc' c hstep e h' with h'' | h''
        · exact Or.inl h''
        · exact Or.inr h''.2
      · exact Or.inr h'

theorem checkLoop_complete (fixName : String → String) (regs : List Row) (threshold : Nat)
    (code : String) (row : Row) (d : Date)
    (hrow : (regs.filter (fun r => strStrip r.code == code)).head? = some row)
    (hparse : parse_date row.date = Except.ok (some d))
    (hgt : threshold < dateOrd d) :
    ∀ (cs : List String) (acc final : List Entry × List String),
    checkLoop fixName regs threshold cs acc = Except.ok final →
    (code ∈ cs ∨ ∃ e ∈ acc.1, e.code = code ∧ e.dateObj = d) →
    (code ∈ acc.2 → ∃ e ∈ acc.1, e.code = code ∧ e.dateObj = d) →
    ∃ e ∈ final.1, e.code = code ∧ e.dateObj = d := by
  intro cs
  induction cs with
  | nil =>
    intro acc final h hin hseen
    unfold checkLoop at h
    injection h with h
    rcases hin with hin | hin
    · exact absurd hin (List.not_mem_nil code)
    · rw [← h]; exact hin
  | cons c cs ih =>
    intro acc final h hin hseen
    unfold checkLoop at h
    split at h
    · exact absurd h (by simp)
    · rename_i acc' hstep
      by_cases hc : c = code
      · subst hc
        by_cases hmem : c ∈ acc.2
        · rcases hseen hmem with ⟨e, he, hp⟩
          have hstep' : acc' = acc := by
            unfold checkStep at hstep
            rw [if_pos hmem] at hstep
            injection hstep with h'; rw [h']
          subst hstep'
          refine ih acc' final h (Or.inr ⟨e, he, hp⟩) (fun _ => ⟨e, he, hp⟩)
        · have hstep' : acc' =
              (acc.1 ++ [⟨c, fixName row.name, strftimeDMY d, d⟩], acc.2 ++ [c]) := by
            unfold checkStep at hstep
            simp only [if_neg hmem, hrow, hparse, if_pos hgt] at hstep
            injection hstep with h'; rw [h']
          have hent : (⟨c, fixName row.name, strftimeDMY d, d⟩ : Entry) ∈ acc'.1 := by
            rw [hstep']
            exact List.mem_append_right _ (List.mem_singleton_self _)
          refine ih acc' final h (Or.inr ⟨_, hent, rfl, rfl⟩) (fun _ => ⟨_, hent, rfl, rfl⟩)
      · have hsub : ∀ e ∈ acc.1, e ∈ acc'.1 :=
          checkStep_mono fixName regs threshold acc acc' c hstep
        refine ih acc' final h ?_ ?_
        · rcases hin with hin | hin
          · rcases List.mem_cons.mp hin with hin | hin
            · exact absurd hin.symm hc
            · exact Or.inl hin
          · rcases hin with ⟨e, he, hp⟩
            exact Or.inr ⟨e, hsub e he, hp⟩
        · intro hmem
          rcases checkStep_seen fixName regs threshold acc acc' c hstep code hmem with hm | hm
          · rcases hseen hm with ⟨e, he, hp⟩
            exact ⟨e, hsub e he, hp⟩
          · exact absurd hm.symm hc

theorem checkResults_sound (fixName : String → String) (codes : List String)
    (regs : List Row) (today : Nat) (res : List Entry)
    (h : checkResults fixName codes regs today = Except.ok res) :
    ∀ e ∈ res, FromFirstRow fixName regs (today - DAYS_TO_CHECK) e := by
  intro e he
  unfold checkResults at h
  split at h
  · exact absurd h (by simp)
  · rename_i acc hloop
    injection h with h
    rw [← h] at he
    have hperm := List.perm_insertionSort entryGE acc.1
    rcases checkLoop_sound fixName regs (today - DAYS_TO_CHECK) codes ([], []) acc hloop e
        (hperm.mem_iff.mp he) with h' | h'
    · exact absurd h' (List.not_mem_nil e)
    · exact h'

theorem checkResults_complete (fixName : String → String) (codes : List String)
    (regs : List Row) (today : Nat) (res : List Entry) (code : String) (row : Row) (d : Date)
    (h : checkResults fixName codes regs today = Except.ok res)
    (hcode : code ∈ codes)
    (hrow : (regs.filter (fun r => strStrip r.code == code)).head? = some row)
    (hparse : parse_date row.date = Except.ok (some d))
    (hgt : today - DAYS_TO_CHECK < dateOrd d) :
    ∃ e ∈ res, e.code = code ∧ e.dateObj = d := by
  unfold checkResults at h
  split at h
  · exact absurd h (by simp)
  · rename_i acc hloop
    injection h with h
    rcases checkLoop_complete fixName regs (today - DAYS_TO_CHECK) code row d hrow hparse hgt
        codes ([], []) acc hloop (Or.inl hcode)
        (fun hx => absurd hx (List.not_mem_nil code)) with ⟨e, he, hp⟩
    refine ⟨e, ?_, hp⟩
    rw [← h]
    exact (List.perm_insertionSort entryGE acc.1).mem_iff.mpr he

/-- C1: the claim says a second consecutive run of the check must not
re-deliver a pair delivered by the first run.  The code defines
load_history and save_history for exactly this purpose but
check_bankruptcy_logic never calls either, so nothing is ever recorded:
with watchlist code 111, a registry row (111, Acme, 02.01.2025) and today
= 03.01.2025, the first run returns the match, leaves the history file
untouched, and the second run returns the very same match again. -/
theorem c1_redelivered_on_second_run :
    (checkWithHistory id ["111"] [⟨"111", "Acme", Cell.str "02.01.2025"⟩]
        (dateOrd ⟨3, 1, 2025⟩) none).1
      = Except.ok [⟨"111", "Acme", "02.01.2025", ⟨2, 1, 2025⟩⟩] ∧
    (checkWithHistory id ["111"] [⟨"111", "Acme", Cell.str "02.01.2025"⟩]
        (dateOrd ⟨3, 1, 2025⟩) none).2 = none ∧
    (checkWithHistory id ["111"] [⟨"111", "Acme", Cell.str "02.01.2025"⟩]
        (dateOrd ⟨3, 1, 2025⟩)
        (checkWithHistory id ["111"] [⟨"111", "Acme", Cell.str "02.01.2025"⟩]
          (dateOrd ⟨3, 1, 2025⟩) none).2).1
      = Except.ok [⟨"111", "Acme", "02.01.2025", ⟨2, 1, 2025⟩⟩] := by
  decide

/-- C2 counterexample: a registry record whose event_date is the
whitespace-only string " " (unparsable, and not NaN) makes parse_date
raise IndexError at strip().split()[0], which aborts the whole check: with
watched codes 1 and 2, where code 2 has a perfectly good recent filing,
the run returns the exception report instead of any match result.  The
empty string behaves the same.  So an unparsable date can raise, and is
then not silently discarded. -/
theorem c2_counterexample :
    parse_date (Cell.str "") = Except.error () ∧
    parse_date (Cell.str " ") = Except.error () ∧
    checkResults id ["1", "2"]
        [⟨"1", "A", Cell.str " "⟩, ⟨"2", "B", Cell.str "02.01.2025"⟩]
        (dateOrd ⟨3, 1, 2025⟩) = Except.error () ∧
    check_bankruptcy_logic id ["1", "2"] true true
        [⟨"1", "A", Cell.str " "⟩, ⟨"2", "B", Cell.str "02.01.2025"⟩]
        (dateOrd ⟨3, 1, 2025⟩) = exceptionMsg := by
  decide

/-- C2 amended: a record whose event_date is NaN, lowercases to "nan", or
has a first whitespace-token that fails DD.MM.YYYY parsing is discarded
silently (parse_date yields ok none, and no such record ever contributes
a match entry — every entry's source row parses successfully); parse_date
never raises when the string has a first token; but an event_date that is
a tokenless string (empty or whitespace-only, and not "nan") raises
IndexError instead of being discarded. -/
theorem c2_unparsable_dates (fixName : String → String) (codes : List String)
    (regs : List Row) (today : Nat) (res : List Entry)
    (h : checkResults fixName codes regs today = Except.ok res) :
    parse_date Cell.nan = Except.ok none ∧
    (∀ s, strLower s = "nan" → parse_date (Cell.str s) = Except.ok none) ∧
    (∀ s t, firstToken s = some t → parse_token t = none →
      parse_date (Cell.str s) = Except.ok none) ∧
    (∀ s t, firstToken s = some t → parse_date (Cell.str s) ≠ Except.error ()) ∧
    (∀ e ∈ res, ∃ row,
      (regs.filter (fun r => strStrip r.code == e.code)).head? = some row ∧
      parse_date row.date = Except.ok (some e.dateObj)) ∧
    (∀ s, strLower s ≠ "nan" → firstToken s = none →
      parse_date (Cell.str s) = Except.error ()) := by
  refine ⟨rfl, ?_, ?_, ?_, ?_, ?_⟩
  · intro s hs
    simp only [parse_date, if_pos hs]
  · intro s t ht hp
    by_cases hs : strLower s = "nan"
    · simp only [parse_date, if_pos hs]
    · simp only [parse_date, if_neg hs, ht, hp]
  · intro s t ht
    by_cases hs : strLower s = "nan"
    · simp only [parse_date, if_pos hs]
      intro hc; cases hc
    · simp only [parse_date, if_neg hs, ht]
      intro hc; cases hc
  · intro e he
    rcases checkResults_sound fixName codes regs today res h e he with
      ⟨row, hrow, hparse, _⟩
    exact ⟨row, hrow, hparse⟩
  · intro s hs ht
    simp only [parse_date, if_neg hs, ht]

/-- C2 witness: concrete instances of every clause of the amended
statement, obtained by applying it at a one-row registry whose record
(code 1, date 02.01.2025) is the sole result. -/
theorem c2_unparsable_dates_witness :
    parse_date Cell.nan = Except.ok none ∧
    parse_date (Cell.str "NAN") = Except.ok none ∧
    parse_date (Cell.str "99.99.9999") = Except.ok none ∧
    parse_date (Cell.str "xx") ≠ Except.error () ∧
    (∀ e ∈ [(⟨"1", "A", "02.01.2025", ⟨2, 1, 2025⟩⟩ : Entry)], ∃ row,
      (([⟨"1", "A", Cell.str "02.01.2025"⟩] : List Row).filter
        (fun r => strStrip r.code == e.code)).head? = some row ∧
      parse_date row.date = Except.ok (some e.dateObj)) := by
  have h := c2_unparsable_dates id ["1"] [⟨"1", "A", Cell.str "02.01.2025"⟩]
    (dateOrd ⟨3, 1, 2025⟩) [⟨"1", "A", "02.01.2025", ⟨2, 1, 2025⟩⟩] (by decide)
  exact ⟨h.1, h.2.1 "NAN" (by decide), h.2.2.1 "99.99.9999" "99.99.9999" (by decide) (by decide),
    h.2.2.2.1 "xx" "xx" (by decide), h.2.2.2.2.1⟩

/-- C3 counterexample: the claim quantifies over every registry record
with a watched identifier, but only the FIRST row per identifier is ever
examined.  With today = 05.01.2025 the cutoff is 03.01.2025; the watched
code 1 has a first row dated 01.01.2025 (before the cutoff) and a second
row dated 04.01.2025 = cutoff + 1 day; the claim requires the second
record to be included, yet the result is empty. -/
theorem c3_counterexample :
    checkResults id ["1"]
        [⟨"1", "A", Cell.str "01.01.2025"⟩, ⟨"1", "B", Cell.str "04.01.2025"⟩]
        (dateOrd ⟨5, 1, 2025⟩) = Except.ok [] := by
  decide

/-- C3 amended: every match has event_date strictly later than the cutoff
(today minus DAYS_TO_CHECK), so a record dated exactly at the cutoff never
appears; and when the FIRST registry row matching a watched identifier
parses to cutoff + 1 day, that record is included.  (A cutoff-plus-one
record that is not the first row of its identifier can be missed — see
the counterexample.) -/
theorem c3_cutoff_boundary (fixName : String → String) (codes : List String)
    (regs : List Row) (today : Nat) (res : List Entry) (code : String)
    (row : Row) (d : Date)
    (h : checkResults fixName codes regs today = Except.ok res)
    (hcode : code ∈ codes)
    (hrow : (regs.filter (fun r => strStrip r.code == code)).head? = some row)
    (hparse : parse_date row.date = Except.ok (some d)) :
    (∀ e ∈ res, today - DAYS_TO_CHECK < dateOrd e.dateObj) ∧
    (dateOrd d = today - DAYS_TO_CHECK →
      ∀ e ∈ res, e.code ≠ code ∨ e.dateObj ≠ d) ∧
    (dateOrd d = (today - DAYS_TO_CHECK) + 1 →
      ∃ e ∈ res, e.code = code ∧ e.dateObj = d) := by
  refine ⟨?_, ?_, ?_⟩
  · intro e he
    rcases checkResults_sound fixName codes regs today res h e he with
      ⟨_, _, _, _, _, hgt⟩
    exact hgt
  · intro hcut e he
    by_cases hec : e.code = code
    · refine Or.inr ?_
      intro hed
      rcases checkResults_sound fixName codes regs today res h e he with
        ⟨_, _, _, _, _, hgt⟩
      rw [hed, hcut] at hgt
      exact Nat.lt_irrefl _ hgt
    · exact Or.inl hec
  · intro hcut
    exact checkResults_complete fixName codes regs today res code row d
      h hcode hrow hparse (by rw [hcut]; exact Nat.lt_succ_self _)

/-- C3 witness: with today = 05.01.2025 (cutoff 03.01.2025), watched codes
1 and 2, code 1's first row dated exactly at the cutoff and code 2's
first row dated at cutoff + 1, the amended statement yields that the sole
result is code 2's record and code 1's is excluded. -/
theorem c3_cutoff_boundary_witness :
    (∀ e ∈ [(⟨"2", "B", "04.01.2025", ⟨4, 1, 2025⟩⟩ : Entry)],
      e.code ≠ "1" ∨ e.dateObj ≠ (⟨3, 1, 2025⟩ : Date)) ∧
    (∃ e ∈ [(⟨"2", "B", "04.01.2025", ⟨4, 1, 2025⟩⟩ : Entry)],
      e.code = "2" ∧ e.dateObj = (⟨4, 1, 2025⟩ : Date)) := by
  refine ⟨?_, ?_⟩
  · exact (c3_cutoff_boundary id ["1", "2"]
      [⟨"1", "A", Cell.str "03.01.2025"⟩, ⟨"2", "B", Cell.str "04.01.2025"⟩]
      (dateOrd ⟨5, 1, 2025⟩) [⟨"2", "B", "04.01.2025", ⟨4, 1, 2025⟩⟩]
      "1" ⟨"1", "A", Cell.str "03.01.2025"⟩ ⟨3, 1, 2025⟩
      (by decide) (by decide) (by decide) (by decide)).2.1 (by decide)
  · exact (c3_cutoff_boundary id ["1", "2"]
      [⟨"1", "A", Cell.str "03.01.2025"⟩, ⟨"2", "B", Cell.str "04.01.2025"⟩]
      (dateOrd ⟨5, 1, 2025⟩) [⟨"2", "B", "04.01.2025", ⟨4, 1, 2025⟩⟩]
      "2" ⟨"2", "B", Cell.str "04.01.2025"⟩ ⟨4, 1, 2025⟩
      (by decide) (by decide) (by decide) (by decide)).2.2 (by decide)

/-- C4 counterexample: the cutoff is not a fixed constant.  Over the same
watchlist and registry snapshot (one record dated 01.01.2025), a run on
01.01.2025 returns the record while a run on 05.01.2025 returns nothing,
because the threshold is recomputed as today minus DAYS_TO_CHECK days. -/
theorem c4_counterexample :
    checkResults id ["1"] [⟨"1", "A", Cell.str "01.01.2025"⟩] (dateOrd ⟨1, 1, 2025⟩)
      = Except.ok [⟨"1", "A", "01.01.2025", ⟨1, 1, 2025⟩⟩] ∧
    checkResults id ["1"] [⟨"1", "A", Cell.str "01.01.2025"⟩] (dateOrd ⟨5, 1, 2025⟩)
      = Except.ok [] ∧
    (Except.ok [(⟨"1", "A", "01.01.2025", ⟨1, 1, 2025⟩⟩ : Entry)]
      : Except Unit (List Entry)) ≠ Except.ok [] := by
  decide

/-- C4 amended: the recency cutoff is a sliding window, not a fixed
constant: every match's event date strictly exceeds today minus
DAYS_TO_CHECK days, and two runs over the same watchlist and snapshot on
the same calendar day apply the same cutoff and produce the same match
set (the embedded matcher is a function of its inputs); runs on different
calendar days can differ, as the counterexample shows. -/
theorem c4_sliding_cutoff (fixName : String → String) (codes : List String)
    (regs : List Row) (today today' : Nat) (res : List Entry)
    (h : checkResults fixName codes regs today = Except.ok res)
    (hsame : today' = today) :
    (∀ e ∈ res, today - DAYS_TO_CHECK < dateOrd e.dateObj) ∧
    checkResults fixName codes regs today' = Except.ok res := by
  refine ⟨?_, by rw [hsame]; exact h⟩
  intro e he
  rcases checkResults_sound fixName codes regs today res h e he with
    ⟨_, _, _, _, _, hgt⟩
  exact hgt

/-- C4 witness: the amended statement applied on today = 03.01.2025 with a
record dated 02.01.2025: the match's date ordinal exceeds the sliding
threshold and a same-day rerun returns the same set. -/
theorem c4_sliding_cutoff_witness :
    (∀ e ∈ [(⟨"1", "A", "02.01.2025", ⟨2, 1, 2025⟩⟩ : Entry)],
      dateOrd ⟨3, 1, 2025⟩ - DAYS_TO_CHECK < dateOrd e.dateObj) ∧
    checkResults id ["1"] [⟨"1", "A", Cell.str "02.01.2025"⟩] (dateOrd ⟨3, 1, 2025⟩)
      = Except.ok [⟨"1", "A", "02.01.2025", ⟨2, 1, 2025⟩⟩] :=
  c4_sliding_cutoff id ["1"] [⟨"1", "A", Cell.str "02.01.2025"⟩]
    (dateOrd ⟨3, 1, 2025⟩) (dateOrd ⟨3, 1, 2025⟩)
    [⟨"1", "A", "02.01.2025", ⟨2, 1, 2025⟩⟩] (by decide) rfl

/-- C5 counterexample: with cutoff 01.01.2025 (today = 03.01.2025) the
watched code 1 has two registry rows with distinct eligible dates,
02.01.2025 and 05.01.2025.  The claim requires both (identifier,
event_date) pairs to appear; the code takes matches.iloc[0] only, so the
later filing (1, 05.01.2025) is absent from the result. -/
theorem c5_counterexample :
    checkResults id ["1"]
        [⟨"1", "A", Cell.str "02.01.2025"⟩, ⟨"1", "B", Cell.str "05.01.2025"⟩]
        (dateOrd ⟨3, 1, 2025⟩)
      = Except.ok [⟨"1", "A", "02.01.2025", ⟨2, 1, 2025⟩⟩] := by
  decide

/-- C5 amended: only the first registry row whose stripped code equals a
watched identifier is ever considered: every match entry originates from
that first row (FromFirstRow), and consequently the result holds at most
one entry per identifier — a later filing of the same identifier in a
subsequent row never yields a separate match. -/
theorem c5_first_row_only (fixName : String → String) (codes : List String)
    (regs : List Row) (today : Nat) (res : List Entry)
    (h : checkResults fixName codes regs today = Except.ok res) :
    (∀ e ∈ res, FromFirstRow fixName regs (today - DAYS_TO_CHECK) e) ∧
    (∀ e1 ∈ res, ∀ e2 ∈ res, e1.code = e2.code → e1 = e2) := by
  refine ⟨checkResults_sound fixName codes regs today res h, ?_⟩
  intro e1 h1 e2 h2 hcode
  rcases checkResults_sound fixName codes regs today res h e1 h1 with
    ⟨row1, hrow1, hparse1, hname1, hdate1, _⟩
  rcases checkResults_sound fixName codes regs today res h e2 h2 with
    ⟨row2, hrow2, hparse2, hname2, hdate2, _⟩
  rw [hcode] at hrow1
  rw [hrow1] at hrow2
  injection hrow2 with hrr
  rw [hrr] at hparse1
  rw [hparse1] at hparse2
  injection hparse2 with hpp
  injection hpp with hdd
  cases e1
  cases e2
  simp only at hcode hname1 hname2 hdate1 hdate2 hdd
  subst hcode
  subst hdd
  rw [hrr] at hname1
  rw [hname1, ← hname2, hdate1, ← hdate2]

/-- C5 witness: the amended statement applied to the counterexample input,
whose sole result entry comes from the first row for code 1. -/
theorem c5_first_row_only_witness :
    (∀ e ∈ [(⟨"1", "A", "02.01.2025", ⟨2, 1, 2025⟩⟩ : Entry)],
      FromFirstRow id
        [⟨"1", "A", Cell.str "02.01.2025"⟩, ⟨"1", "B", Cell.str "05.01.2025"⟩]
        (dateOrd ⟨3, 1, 2025⟩ - DAYS_TO_CHECK) e) ∧
    (∀ e1 ∈ [(⟨"1", "A", "02.01.2025", ⟨2, 1, 2025⟩⟩ : Entry)],
      ∀ e2 ∈ [(⟨"1", "A", "02.01.2025", ⟨2, 1, 2025⟩⟩ : Entry)],
      e1.code = e2.code → e1 = e2) :=
  c5_first_row_only id ["1"]
    [⟨"1", "A", Cell.str "02.01.2025"⟩, ⟨"1", "B", Cell.str "05.01.2025"⟩]
    (dateOrd ⟨3, 1, 2025⟩) [⟨"1", "A", "02.01.2025", ⟨2, 1, 2025⟩⟩] (by decide)

/-- C6: every successfully computed match list is sorted by event date in
descending order (newest filing first): each entry's date ordinal is at
least the next entry's, the order entryGE imposed by results.sort with
reverse=True in the source. -/
theorem c6_sorted_descending (fixName : String → String) (codes : List String)
    (regs : List Row) (today : Nat) (res : List Entry)
    (h : checkResults fixName codes regs today = Except.ok res) :
    List.Sorted entryGE res := by
  unfold checkResults at h
  split at h
  · exact absurd h (by simp)
  · injection h with h
    rw [← h]
    exact List.sorted_insertionSort entryGE _

/-- C6 witness: a two-record run whose result lists the 05.01.2025 filing
before the 02.01.2025 one, sorted descending by the theorem. -/
theorem c6_sorted_descending_witness :
    List.Sorted entryGE
      [⟨"2", "B", "05.01.2025", ⟨5, 1, 2025⟩⟩,
       ⟨"1", "A", "02.01.2025", ⟨2, 1, 2025⟩⟩] :=
  c6_sorted_descending id ["1", "2"]
    [⟨"1", "A", Cell.str "02.01.2025"⟩, ⟨"2", "B", Cell.str "05.01.2025"⟩]
    (dateOrd ⟨3, 1, 2025⟩)
    [⟨"2", "B", "05.01.2025", ⟨5, 1, 2025⟩⟩,
     ⟨"1", "A", "02.01.2025", ⟨2, 1, 2025⟩⟩] (by decide)

/-- C7: an empty watchlist (in particular the one produced by a missing
companies.txt) makes the check return the no-watchlist message before any
download is attempted, while a non-empty watchlist with no new matches
returns the no-new-matches message, and the two messages differ. -/
theorem c7_no_watchlist_distinct :
    (∀ (fixName : String → String) (dOk rOk : Bool) (regs : List Row) (today : Nat),
      check_bankruptcy_logic fixName [] dOk rOk regs today = noWatchlistMsg) ∧
    (∀ (fixName : String → String) (dOk rOk : Bool) (regs : List Row) (today : Nat),
      check_bankruptcy_logic fixName (get_monitored_codes none) dOk rOk regs today
        = noWatchlistMsg) ∧
    (∀ (fixName : String → String) (codes : List String) (regs : List Row) (today : Nat),
      codes ≠ [] → checkResults fixName codes regs today = Except.ok [] →
      check_bankruptcy_logic fixName codes true true regs today = noMatchesMsg) ∧
    noWatchlistMsg ≠ noMatchesMsg := by
  refine ⟨?_, ?_, ?_, by decide⟩
  · intro fixName dOk rOk regs today
    rfl
  · intro fixName dOk rOk regs today
    rfl
  · intro fixName codes regs today hne h
    unfold check_bankruptcy_logic
    cases codes with
    | nil => exact absurd rfl hne
    | cons c cs =>
      simp only [List.isEmpty_cons, Bool.false_eq_true, if_false, Bool.not_true, h,
        List.isEmpty_nil, if_true]

/-- C7 witness: a concrete non-empty watchlist over an empty registry
snapshot yields the no-new-matches message. -/
theorem c7_no_watchlist_distinct_witness :
    check_bankruptcy_logic id ["9"] true true [] 0 = noMatchesMsg :=
  c7_no_watchlist_distinct.2.2.1 id ["9"] [] 0 (by decide) (by decide)

/-- C8: the scheduled delivery loop attempts every subscriber in order no
matter which sends fail — the attempt trace is exactly the subscriber list
paired with each send outcome — and success_count counts exactly the
successful subscribers. -/
theorem c8_failure_does_not_abort (subscribers : List String) (sendOk : String → Bool) :
    (scheduled_deliver subscribers sendOk).1
        = subscribers.map (fun chat_id => (chat_id, sendOk chat_id)) ∧
    (scheduled_deliver subscribers sendOk).2 = (subscribers.filter sendOk).length := by
  have aux : ∀ (subs : List String) (tr : List (String × Bool)) (n : Nat),
      (subs.foldl
        (fun acc chat_id =>
          (acc.1 ++ [(chat_id, sendOk chat_id)],
            if sendOk chat_id then acc.2 + 1 else acc.2)) (tr, n))
        = (tr ++ subs.map (fun chat_id => (chat_id, sendOk chat_id)),
            n + (subs.filter sendOk).length) := by
    intro subs
    induction subs with
    | nil => intro tr n; simp
    | cons c cs ih =>
      intro tr n
      by_cases hc : sendOk c
      · simp only [List.foldl_cons, ih, List.map_cons, List.filter_cons, hc, if_pos]
        simp [Prod.ext_iff, Nat.add_comm, Nat.add_assoc, Nat.add_left_comm]
      · simp only [List.foldl_cons, ih, List.map_cons, List.filter_cons, hc,
          Bool.false_eq_true, if_false]
        simp [Prod.ext_iff]
  unfold scheduled_deliver
  rw [aux subscribers [] 0]
  simp

/-- C9: adding a subscriber twice is idempotent.  For a chat id in
canonical form (no surrounding whitespace, non-empty — str(chat_id) of a
Telegram integer id always is) not yet subscribed: the first call reports
True and appends the id, the second call reports False and leaves the
file unchanged, and exactly one stored line carries that id. -/
theorem c9_add_subscriber_idempotent (file : Option (List String)) (chat_id : String)
    (htrim : strStrip chat_id = chat_id) (hne : chat_id ≠ "")
    (hnotin : chat_id ∉ get_subscribers file) :
    (add_subscriber file chat_id).1 = true ∧
    (add_subscriber (add_subscriber file chat_id).2 chat_id).1 = false ∧
    (add_subscriber (add_subscriber file chat_id).2 chat_id).2
      = (add_subscriber file chat_id).2 ∧
    ((add_subscriber file chat_id).2.getD []).countP (fun l => strStrip l == chat_id) = 1 := by
  have h1 : add_subscriber file chat_id = (true, some ((file.getD []) ++ [chat_id])) := by
    unfold add_subscriber
    rw [if_neg hnotin]
  have hmem2 : chat_id ∈ get_subscribers (some ((file.getD []) ++ [chat_id])) := by
    unfold get_subscribers
    rw [List.mem_filter]
    constructor
    · rw [List.mem_map]
      exact ⟨chat_id, List.mem_append_right _ (List.mem_singleton_self _), htrim⟩
    · simpa using hne
  have h2 : add_subscriber (some ((file.getD []) ++ [chat_id])) chat_id
      = (false, some ((file.getD []) ++ [chat_id])) := by
    unfold add_subscriber
    rw [if_pos hmem2]
  have hcount0 : (file.getD []).countP (fun l => strStrip l == chat_id) = 0 := by
    rw [List.countP_eq_zero]
    intro l hl hcl
    have hsl : strStrip l = chat_id := by
      have := of_decide_eq_true hcl
      exact of_decide_eq_true hcl
    apply hnotin
    cases file with
    | none => exact absurd hl (List.not_mem_nil l)
    | some lines =>
      unfold get_subscribers
      rw [List.mem_filter]
      constructor
      · rw [List.mem_map]
        exact ⟨l, hl, hsl⟩
      · simpa using hne
  refine ⟨by rw [h1], by rw [h1, h2], by rw [h1, h2], ?_⟩
  rw [h1]
  simp only [Option.getD_some]
  rw [List.countP_append, hcount0]
  simp [List.countP_cons, htrim]

/-- C9 witness: the idempotence statement applied to a file holding one
other subscriber and the fresh chat id 123. -/
theorem c9_add_subscriber_idempotent_witness :
    (add_subscriber (some ["777"]) "123").1 = true ∧
    (add_subscriber (add_subscriber (some ["777"]) "123").2 "123").1 = false ∧
    (add_subscriber (add_subscriber (some ["777"]) "123").2 "123").2
      = (add_subscriber (some ["777"]) "123").2 ∧
    ((add_subscriber (some ["777"]) "123").2.getD []).countP
      (fun l => strStrip l == "123") = 1 :=
  c9_add_subscriber_idempotent (some ["777"]) "123" (by decide) (by decide) (by decide)

theorem indexOf_append_cons_self (a : String) (l₁ l₂ : List String) (h : a ∉ l₁) :
    List.indexOf a (l₁ ++ a :: l₂) = l₁.length := by
  rw [List.indexOf_append_of_not_mem h, List.indexOf_cons_self, Nat.add_zero]

theorem dedup_fold_invariant :
    ∀ (cs pre u s : List String),
    (∀ x, x ∈ s ↔ x ∈ u) →
    (∀ x, x ∈ u ↔ x ∈ pre) →
    u.Nodup →
    (∀ x ∈ u, List.indexOf x (pre ++ cs) < pre.length) →
    u.Pairwise (fun a b => List.indexOf a (pre ++ cs) < List.indexOf b (pre ++ cs)) →
    (cs.foldl dedupStep (u, s)).1.Nodup ∧
    (∀ x, x ∈ (cs.foldl dedupStep (u, s)).1 ↔ x ∈ pre ++ cs) ∧
    (cs.foldl dedupStep (u, s)).1.Pairwise
      (fun a b => List.indexOf a (pre ++ cs) < List.indexOf b (pre ++ cs)) := by
  intro cs
  induction cs with
  | nil =>
    intro pre u s _ hmem hnd _ hpw
    refine ⟨hnd, ?_, hpw⟩
    intro x
    rw [List.append_nil]
    exact hmem x
  | cons c cs ih =>
    intro pre u s hus hmem hnd hidx hpw
    have hassoc : pre ++ c :: cs = (pre ++ [c]) ++ cs := by
      rw [List.append_assoc, List.singleton_append]
    by_cases hc : c ∈ s
    · have hstep : dedupStep (u, s) c = (u, s) := by
        unfold dedupStep
        rw [if_pos hc]
      rw [List.foldl_cons, hstep, hassoc]
      refine ih (pre ++ [c]) u s hus ?_ hnd ?_ ?_
      · intro x
        rw [hmem x, List.mem_append, List.mem_singleton]
        constructor
        · exact fun hx => Or.inl hx
        · rintro (hx | hx)
          · exact hx
          · rw [hx, ← hmem c]
            exact (hus c).mp hc
      · intro x hx
        rw [← hassoc]
        calc List.indexOf x (pre ++ c :: cs) < pre.length := hidx x hx
          _ ≤ (pre ++ [c]).length := by simp
      · rw [← hassoc]
        exact hpw
    · have hcu : c ∉ u := fun hcu => hc ((hus c).mpr hcu)
      have hcpre : c ∉ pre := fun hp => hcu ((hmem c).mpr hp)
      have hstep : dedupStep (u, s) c = (u ++ [c], c :: s) := by
        simp [dedupStep, hc]
      rw [List.foldl_cons, hstep, hassoc]
      have hidxc : List.indexOf c (pre ++ c :: cs) = pre.length :=
        indexOf_append_cons_self c pre cs hcpre
      refine ih (pre ++ [c]) (u ++ [c]) (c :: s) ?_ ?_ ?_ ?_ ?_
      · intro x
        rw [List.mem_cons, List.mem_append, List.mem_singleton, hus x]
        exact Or.comm
      · intro x
        simp only [List.mem_append, List.mem_singleton, hmem x]
      · rw [← List.concat_eq_append]
        exact List.Nodup.concat hcu hnd
      · intro x hx
        rw [← hassoc]
        rcases List.mem_append.mp hx with hx | hx
        · calc List.indexOf x (pre ++ c :: cs) < pre.length := hidx x hx
            _ ≤ (pre ++ [c]).length := by simp
        · rw [List.mem_singleton.mp hx, hidxc]
          simp
      · rw [← hassoc, List.pairwise_append]
        refine ⟨hpw, List.pairwise_singleton _ _, ?_⟩
        intro a ha b hb
        rw [List.mem_singleton.mp hb, hidxc]
        exact hidx a ha

/-- C10: the watchlist read yields, for a missing or unreadable file, the
empty list, and otherwise a duplicate-free list containing exactly the
stripped non-blank lines, ordered by strictly increasing first-occurrence
position among them (order of first occurrence in the file). -/
theorem c10_monitored_codes_dedup :
    get_monitored_codes none = [] ∧
    ∀ lines : List String,
      (get_monitored_codes (some lines)).Nodup ∧
      (∀ c, c ∈ get_monitored_codes (some lines) ↔
        c ∈ (lines.map strStrip).filter (fun l => l ≠ "")) ∧
      (get_monitored_codes (some lines)).Pairwise
        (fun a b =>
          List.indexOf a ((lines.map strStrip).filter (fun l => l ≠ "")) <
          List.indexOf b ((lines.map strStrip).filter (fun l => l ≠ ""))) := by
  refine ⟨rfl, ?_⟩
  intro lines
  have h := dedup_fold_invariant ((lines.map strStrip).filter (fun l => l ≠ "")) [] [] []
    (fun x => Iff.rfl) (fun x => Iff.rfl) List.nodup_nil
    (fun x hx => absurd hx (List.not_mem_nil x))
    List.Pairwise.nil
  rw [List.nil_append] at h
  exact ⟨h.1, h.2.1, h.2.2⟩

end BankruptBot
